import Mathlib

/-!
Shallow embedding of the skill-matching and job-filtering core of the
job-board application (source: `src/pages/Jobs.tsx`), together with proofs
of the specified properties.

Strings are Lean `String`s (a `String` is a structure over `List Char`).
JavaScript's `toLowerCase` is modelled by ASCII case folding (`Char.toLower`
mapped over the characters); all comparisons in the source operate on
lower-cased forms of plain ASCII skill names and search terms.
JavaScript's `String.prototype.includes` is modelled by an executable
substring scan over the character lists.
Nullable fields (`string | null`, `number | null`) are `Option`s.
The numeric filter fields (`filters.salaryMin`, `filters.salaryMax`) are
held as strings in the source and parsed with `parseInt` at use sites; a
blank string is falsy and disables the axis, so they are modelled as
`Option Int` (blank ↦ `none`, otherwise the parsed integer).
-/

namespace JobBoard

/-- ASCII case folding, modelling JavaScript's `toLowerCase` on the
ASCII strings the application compares. -/
def jsToLower (s : String) : String :=
  ⟨s.data.map Char.toLower⟩

/-- `startsWith n h` : the character list `n` is a leading segment of `h`. -/
def startsWith : List Char → List Char → Bool
  | [], _ => true
  | _ :: _, [] => false
  | a :: as, b :: bs => a == b && startsWith as bs

/-- `listIncludes n h` : the character list `n` occurs contiguously in `h`
(the scan behind JavaScript's `String.prototype.includes`). -/
def listIncludes (needle : List Char) : List Char → Bool
  | [] => startsWith needle []
  | c :: t => startsWith needle (c :: t) || listIncludes needle t

/-- `strIncludes hay needle` models JavaScript's `hay.includes(needle)`. -/
def strIncludes (hay needle : String) : Bool :=
  listIncludes needle.data hay.data

/-- Mathematical substring relation: `needle`'s characters occur
contiguously inside `hay`'s. -/
def StrContains (hay needle : String) : Prop :=
  ∃ p t, hay.data = p ++ needle.data ++ t

/-- Case-fold equality of two skills: equality of lower-cased forms,
no other normalization. -/
def SkillEqCI (a b : String) : Prop :=
  jsToLower a = jsToLower b

instance (a b : String) : Decidable (SkillEqCI a b) :=
  inferInstanceAs (Decidable (jsToLower a = jsToLower b))

/-- `getMatchingSkills` from `Jobs.tsx` (lines 73–79):
`userSkills.filter(skill => requiredSkills.some(required =>
  required.toLowerCase() === skill.toLowerCase()))`. -/
def getMatchingSkills (userSkills requiredSkills : List String) : List String :=
  userSkills.filter fun skill =>
    requiredSkills.any fun required => jsToLower required == jsToLower skill

/-- `getMissingSkills` from `Jobs.tsx` (lines 81–87):
`requiredSkills.filter(required => !userSkills.some(skill =>
  skill.toLowerCase() === required.toLowerCase()))`. -/
def getMissingSkills (userSkills requiredSkills : List String) : List String :=
  requiredSkills.filter fun required =>
    !(userSkills.any fun skill => jsToLower skill == jsToLower required)

/-- Core of `canApplyToJob` (lines 92–93) once both skill lists are
present: `getMissingSkills(...).length === 0`. -/
def canApply (candidateSkills requiredSkills : List String) : Bool :=
  (getMissingSkills candidateSkills requiredSkills).length == 0

/-- `canApplyToJob` from `Jobs.tsx` (lines 89–94), with the null guard of
line 90: `if (!profile?.skills || !job.required_skills) return true;`.
An absent (`null`/`undefined`) list short-circuits to `true`; an empty
array is truthy in JavaScript and does not. -/
def canApplyToJob (profileSkills requiredSkills : Option (List String)) : Bool :=
  match profileSkills, requiredSkills with
  | some us, some rs => canApply us rs
  | _, _ => true

/-- The fields of a job record used by the client-side filter
(`jobs` row of the backing store; nullable columns are `Option`s). -/
structure Job where
  title : String
  companyName : String
  description : String
  location : Option String
  jobType : Option String
  salaryMin : Option Int
  salaryMax : Option Int
  deriving DecidableEq

/-- The `JobFilters` criteria record. `search`, `location`, `jobType` are
plain strings (blank = inactive). `salaryMin` / `salaryMax` are held as
strings in the source and parsed with `parseInt`; blank (falsy) ↦ `none`. -/
structure JobFilters where
  search : String
  location : String
  jobType : String
  salaryMin : Option Int
  salaryMax : Option Int
  deriving DecidableEq

/-- All-blank criteria. -/
def blankFilters : JobFilters :=
  { search := "", location := "", jobType := "", salaryMin := none, salaryMax := none }

/-- Search axis of `filteredJobs` (lines 147–157): when `filters.search`
is truthy the job passes iff the lower-cased search string is included in
the lower-cased title, company name, description, or location; an absent
location makes only that disjunct false (`job.location?.toLowerCase()
.includes(...)` is `undefined`, hence falsy). -/
def searchCheck (f : JobFilters) (j : Job) : Bool :=
  if f.search = "" then true
  else
    let searchLower := jsToLower f.search
    strIncludes (jsToLower j.title) searchLower ||
    strIncludes (jsToLower j.companyName) searchLower ||
    strIncludes (jsToLower j.description) searchLower ||
    (match j.location with
     | some l => strIncludes (jsToLower l) searchLower
     | none => false)

/-- Location axis (lines 159–162): when `filters.location` is truthy the
job passes iff its location is present and includes the lower-cased
criteria string. -/
def locationCheck (f : JobFilters) (j : Job) : Bool :=
  if f.location = "" then true
  else
    match j.location with
    | some l => strIncludes (jsToLower l) (jsToLower f.location)
    | none => false

/-- Job-type axis (lines 164–167): when `filters.jobType` is truthy the
job passes iff `job.job_type` equals it exactly (`!==` on raw strings; a
null `job_type` never equals a truthy criteria string). -/
def jobTypeCheck (f : JobFilters) (j : Job) : Bool :=
  if f.jobType = "" then true
  else
    match j.jobType with
    | some t => t == f.jobType
    | none => false

/-- First salary guard (lines 170–172):
`if (filters.salaryMin && job.salary_max && parseInt(filters.salaryMin) >
job.salary_max) return false;` — note `job.salary_max` is a truthiness
test, false for both `null` and `0`. -/
def salaryMinCheck (f : JobFilters) (j : Job) : Bool :=
  match f.salaryMin, j.salaryMax with
  | some m, some x => !(x != 0 && m > x)
  | _, _ => true

/-- Second salary guard (lines 173–175):
`if (filters.salaryMax && job.salary_min && parseInt(filters.salaryMax) <
job.salary_min) return false;`. -/
def salaryMaxCheck (f : JobFilters) (j : Job) : Bool :=
  match f.salaryMax, j.salaryMin with
  | some m, some x => !(x != 0 && m < x)
  | _, _ => true

/-- The predicate of the `jobs.filter(job => ...)` expression
(lines 147–178): each guard that fires returns `false`, so the job is
retained iff every axis passes. -/
def jobPass (f : JobFilters) (j : Job) : Bool :=
  searchCheck f j && locationCheck f j && jobTypeCheck f j &&
  salaryMinCheck f j && salaryMaxCheck f j

/-- `filteredJobs` (line 147): `jobs.filter(job => ...)`. -/
def filteredJobs (jobs : List Job) (f : JobFilters) : List Job :=
  jobs.filter (jobPass f)

/-- The salary axis as the specification states it: with an active bound,
a job is excluded exactly when the opposing bound of the job is present
and strictly contradicts it. -/
def SalaryAxisAsSpecified : Prop :=
  ∀ (f : JobFilters) (j : Job),
    (f.salaryMin.isSome →
      (salaryMinCheck f j = false ↔
        ∃ m x, f.salaryMin = some m ∧ j.salaryMax = some x ∧ x < m)) ∧
    (f.salaryMax.isSome →
      (salaryMaxCheck f j = false ↔
        ∃ m x, f.salaryMax = some m ∧ j.salaryMin = some x ∧ m < x))

/-- A leading segment is exactly a prefix decomposition. -/
theorem startsWith_iff (n h : List Char) :
    startsWith n h = true ↔ ∃ t, h = n ++ t := by
  induction n generalizing h with
  | nil => simp [startsWith]
  | cons a as ih =>
    cases h with
    | nil => simp [startsWith]
    | cons b bs =>
      rw [startsWith, Bool.and_eq_true, beq_iff_eq, ih]
      constructor
      · rintro ⟨rfl, t, rfl⟩; exact ⟨t, rfl⟩
      · rintro ⟨t, ht⟩
        rw [List.cons_append, List.cons_eq_cons] at ht
        exact ⟨ht.1.symm, t, ht.2⟩

/-- The scan `listIncludes` decides contiguous containment. -/
theorem listIncludes_iff (n h : List Char) :
    listIncludes n h = true ↔ ∃ p t, h = p ++ n ++ t := by
  induction h with
  | nil =>
    rw [listIncludes, startsWith_iff]
    constructor
    · rintro ⟨t, ht⟩
      exact ⟨[], t, by simpa using ht⟩
    · rintro ⟨p, t, ht⟩
      have hn := List.append_eq_nil.mp ht.symm
      have hn2 := List.append_eq_nil.mp hn.1
      exact ⟨t, by simp [hn2.2, hn.2]⟩
  | cons c t ih =>
    rw [listIncludes, Bool.or_eq_true, startsWith_iff, ih]
    constructor
    · rintro (⟨s, hs⟩ | ⟨p, s, hs⟩)
      · exact ⟨[], s, by simpa using hs⟩
      · exact ⟨c :: p, s, by simp [hs]⟩
    · rintro ⟨p, s, hs⟩
      cases p with
      | nil => exact Or.inl ⟨s, by simpa using hs⟩
      | cons c' p' =>
        rw [List.cons_append, List.cons_append, List.cons_eq_cons] at hs
        exact Or.inr ⟨p', s, by simpa using hs.2⟩

/-- The modelled `includes` realizes the substring relation. -/
theorem strIncludes_iff (hay needle : String) :
    strIncludes hay needle = true ↔ StrContains hay needle :=
  listIncludes_iff needle.data hay.data

/-- C1: `canApply A B` is true iff `getMissingSkills A B` is empty; in
particular an empty required list yields true for every candidate list,
including the empty one. -/
theorem canApply_iff_no_missing :
    (∀ A B : List String, canApply A B = true ↔ getMissingSkills A B = []) ∧
    (∀ A : List String, canApply A [] = true) := by
  constructor
  · intro A B
    simp [canApply, List.length_eq_zero]
  · intro A
    simp [canApply, getMissingSkills]

/-- C2: `getMissingSkills A B` is the sublist of `B`, in `B`'s order, of
exactly those required skills with no case-insensitively equal element of
`A`; hence it is a sublist of `B`, its length is at most `B`'s, and every
element of it occurs in `B`. -/
theorem missing_skills_spec :
    ∀ A B : List String,
      getMissingSkills A B =
        B.filter (fun r => decide (∀ s ∈ A, ¬ SkillEqCI s r)) ∧
      (getMissingSkills A B).Sublist B ∧
      (getMissingSkills A B).length ≤ B.length ∧
      ∀ x ∈ getMissingSkills A B, x ∈ B := by
  intro A B
  have hf : getMissingSkills A B =
      B.filter (fun r => decide (∀ s ∈ A, ¬ SkillEqCI s r)) := by
    apply List.filter_congr
    intro r _
    rw [Bool.eq_iff_iff]
    simp [List.any_eq_true, SkillEqCI]
  have hs : (getMissingSkills A B).Sublist B := List.filter_sublist B
  exact ⟨hf, hs, hs.length_le, fun x hx => hs.subset hx⟩

theorem missing_skills_spec_witness :
    "Rust" ∈ getMissingSkills ["SQL"] ["sql", "Rust"] ∧ "Rust" ∈ ["sql", "Rust"] := by
  have h := missing_skills_spec ["SQL"] ["sql", "Rust"]
  exact ⟨by decide, h.2.2.2 "Rust" (by decide)⟩

/-- C3: `getMatchingSkills A B` is the sublist of `A`, in `A`'s order, of
exactly those candidate entries with at least one case-insensitively equal
required skill (each occurrence kept at most once, duplicates in `A` not
deduplicated); lower-casing is the only normalization, so duplicated
candidates both match and "Java Script" does not match "JavaScript". -/
theorem matching_skills_spec :
    (∀ A B : List String,
      getMatchingSkills A B =
        A.filter (fun s => decide (∃ r ∈ B, SkillEqCI r s)) ∧
      (getMatchingSkills A B).Sublist A) ∧
    getMatchingSkills ["SQL", "SQL"] ["sql"] = ["SQL", "SQL"] ∧
    getMatchingSkills ["Java Script"] ["JavaScript"] = [] := by
  refine ⟨fun A B => ⟨?_, List.filter_sublist A⟩, by decide, by decide⟩
  apply List.filter_congr
  intro s _
  rw [Bool.eq_iff_iff]
  simp [List.any_eq_true, SkillEqCI]

/-- C9: `canApplyToJob` returns true whenever the candidate's skill list
is absent or the job's required-skill list is absent, for every value of
the other list (including non-empty required skills). -/
theorem canApplyToJob_absent_skills (ps rs : Option (List String))
    (h : ps = none ∨ rs = none) : canApplyToJob ps rs = true := by
  rcases h with rfl | rfl
  · rfl
  · cases ps <;> rfl

theorem canApplyToJob_absent_skills_witness :
    canApplyToJob none (some ["Rust", "Go"]) = true :=
  canApplyToJob_absent_skills none (some ["Rust", "Go"]) (Or.inl rfl)

/-- C5: with a non-blank search string, a job passes the search axis iff
the lower-cased search string is a substring of the lower-cased title,
company name, description, or (when present) location. -/
theorem search_axis (f : JobFilters) (j : Job) (h : f.search ≠ "") :
    searchCheck f j = true ↔
      StrContains (jsToLower j.title) (jsToLower f.search) ∨
      StrContains (jsToLower j.companyName) (jsToLower f.search) ∨
      StrContains (jsToLower j.description) (jsToLower f.search) ∨
      ∃ l, j.location = some l ∧ StrContains (jsToLower l) (jsToLower f.search) := by
  cases hl : j.location with
  | none => simp [searchCheck, if_neg h, hl, strIncludes_iff, or_assoc]
  | some l => simp [searchCheck, if_neg h, hl, strIncludes_iff, or_assoc]

theorem search_axis_witness :
    searchCheck { blankFilters with search := "acme" }
      { title := "Backend Engineer", companyName := "Acme", description := "d",
        location := none, jobType := none, salaryMin := none, salaryMax := none } = true := by
  have h := search_axis { blankFilters with search := "acme" }
    { title := "Backend Engineer", companyName := "Acme", description := "d",
      location := none, jobType := none, salaryMin := none, salaryMax := none } (by decide)
  exact h.mpr (Or.inr (Or.inl ⟨[], [], by decide⟩))

/-- C6: with a non-blank job-type criterion, a job passes the job-type
axis iff its job type equals the criterion exactly (case-sensitive). -/
theorem jobType_axis (f : JobFilters) (j : Job) (h : f.jobType ≠ "") :
    jobTypeCheck f j = true ↔ j.jobType = some f.jobType := by
  cases ht : j.jobType with
  | none => simp [jobTypeCheck, if_neg h, ht]
  | some t => simp [jobTypeCheck, if_neg h, ht]

theorem jobType_axis_witness :
    jobTypeCheck { blankFilters with jobType := "Full-time" }
      { title := "t", companyName := "c", description := "d", location := none,
        jobType := some "full-time", salaryMin := none, salaryMax := none } = false := by
  have h := jobType_axis { blankFilters with jobType := "Full-time" }
    { title := "t", companyName := "c", description := "d", location := none,
      jobType := some "full-time", salaryMin := none, salaryMax := none } (by decide)
  by_contra hb
  rw [Bool.not_eq_false] at hb
  exact absurd (h.mp hb) (by decide)

/-- C8: with a non-blank location criterion, a job passes the location
axis iff its location is present and contains the criterion string
case-insensitively; a job with an absent location is always excluded. -/
theorem location_axis (f : JobFilters) (j : Job) (h : f.location ≠ "") :
    (locationCheck f j = true ↔
      ∃ l, j.location = some l ∧ StrContains (jsToLower l) (jsToLower f.location)) ∧
    (j.location = none → locationCheck f j = false) := by
  cases hl : j.location with
  | none => simp [locationCheck, if_neg h, hl]
  | some l => simp [locationCheck, if_neg h, hl, strIncludes_iff]

theorem location_axis_witness :
    locationCheck { blankFilters with location := "berlin" }
      { title := "t", companyName := "c", description := "d",
        location := some "Berlin, Germany", jobType := none,
        salaryMin := none, salaryMax := none } = true := by
  have h := location_axis { blankFilters with location := "berlin" }
    { title := "t", companyName := "c", description := "d",
      location := some "Berlin, Germany", jobType := none,
      salaryMin := none, salaryMax := none } (by decide)
  exact h.1.mpr ⟨"Berlin, Germany", rfl, ⟨[], (", germany").data, by decide⟩⟩

/-- C7: the filter's output is an order-preserving sublist of its input
for every criteria record, and with all-blank criteria it is the input
list unchanged. -/
theorem filteredJobs_sublist_and_identity :
    (∀ (jobs : List Job) (f : JobFilters), (filteredJobs jobs f).Sublist jobs) ∧
    (∀ jobs : List Job, filteredJobs jobs blankFilters = jobs) := by
  constructor
  · intro jobs f
    exact List.filter_sublist jobs
  · intro jobs
    apply List.filter_eq_self.mpr
    intro j _
    cases hmin : j.salaryMin <;> cases hmax : j.salaryMax <;>
      simp [jobPass, searchCheck, locationCheck, jobTypeCheck,
        salaryMinCheck, salaryMaxCheck, blankFilters, hmin, hmax]

/-- C4 counterexample: the salary axis as the specification states it is
false on the code — a job whose `salaryMax` is `0` (present and strictly
below an active `salaryMin` of 85000) is nevertheless retained, because
the guard tests `job.salary_max` for truthiness and `0` is falsy. -/
theorem salary_axis_as_specified_false : ¬ SalaryAxisAsSpecified := by
  intro hclaim
  have h := (hclaim { blankFilters with salaryMin := some 85000 }
    { title := "t", companyName := "c", description := "d", location := none,
      jobType := none, salaryMin := some 50000, salaryMax := some 0 }).1 rfl
  have hfalse := h.mpr ⟨85000, 0, rfl, rfl, by norm_num⟩
  exact absurd hfalse (by decide)

/-- C4 (amended): a job is excluded by the `salaryMin` guard exactly when
its `salaryMax` is present, nonzero, and strictly below the active
criterion; symmetrically for the `salaryMax` guard against the job's
`salaryMin`. -/
theorem salary_axis_amended :
    ∀ (f : JobFilters) (j : Job),
      (salaryMinCheck f j = false ↔
        ∃ m x, f.salaryMin = some m ∧ j.salaryMax = some x ∧ x ≠ 0 ∧ x < m) ∧
      (salaryMaxCheck f j = false ↔
        ∃ m x, f.salaryMax = some m ∧ j.salaryMin = some x ∧ x ≠ 0 ∧ m < x) := by
  intro f j
  constructor
  · cases hm : f.salaryMin with
    | none => simp [salaryMinCheck, hm]
    | some m =>
      cases hx : j.salaryMax with
      | none => simp [salaryMinCheck, hm, hx]
      | some x =>
        simp [salaryMinCheck, hm, hx, and_comm]
  · cases hm : f.salaryMax with
    | none => simp [salaryMaxCheck, hm]
    | some m =>
      cases hx : j.salaryMin with
      | none => simp [salaryMaxCheck, hm, hx]
      | some x =>
        simp [salaryMaxCheck, hm, hx, and_comm]

/-- C10: a job whose `salaryMax` is `0` is never excluded by an active
`salaryMin` criterion, and a job whose `salaryMin` is `0` is never
excluded by an active `salaryMax` criterion — `0` is falsy in the guard
and so indistinguishable from an absent bound. -/
theorem salary_zero_treated_as_absent :
    ∀ (f : JobFilters) (j : Job),
      (j.salaryMax = some 0 → salaryMinCheck f j = true) ∧
      (j.salaryMin = some 0 → salaryMaxCheck f j = true) := by
  intro f j
  constructor
  · intro h
    cases hm : f.salaryMin <;> simp [salaryMinCheck, hm, h]
  · intro h
    cases hm : f.salaryMax <;> simp [salaryMaxCheck, hm, h]

theorem salary_zero_treated_as_absent_witness :
    salaryMinCheck { blankFilters with salaryMin := some 1000000 }
      { title := "t", companyName := "c", description := "d", location := none,
        jobType := none, salaryMin := some 50000, salaryMax := some 0 } = true :=
  (salary_zero_treated_as_absent { blankFilters with salaryMin := some 1000000 }
    { title := "t", companyName := "c", description := "d", location := none,
      jobType := none, salaryMin := some 50000, salaryMax := some 0 }).1 rfl

end JobBoard
